import Mathlib

/-!
Shallow embedding of the telegraf `newrelic` output plugin
(`plugins/outputs/newrelic/newrelic.go`).

Modelling conventions:
* Go maps are modelled as association lists with unique keys; map
  assignment is `updateAssoc` (overwrite in place, else append), map read
  is `lookupA`.
* `float64` values are modelled as exact rationals `ℚ`; the code only
  adds, multiplies and compares them.
* The single-pass byte replacer `sanitizedChars` is modelled per
  character: every replacement pattern is a single byte, so Go applies it
  as one independent substitution per input byte.
* HTTP and JSON parsing are external collaborators: `sendData`'s response
  handling is modelled on the already-read status code and the
  already-parsed body (`Option NRResponse`, `none` = malformed JSON);
  `os.Hostname` is an `Except` parameter of `Connect`.
-/

namespace Newrelic

/-- Association-list read, modelling a Go map read. -/
def lookupA {α : Type} : List (String × α) → String → Option α
  | [], _ => none
  | (k₁, v₁) :: rest, k => if k₁ = k then some v₁ else lookupA rest k

/-- Association-list write, modelling Go map assignment `m[k] = v`:
overwrite the existing entry for `k`, otherwise append a new one. -/
def updateAssoc {α : Type} : List (String × α) → String → α → List (String × α)
  | [], k, v => [(k, v)]
  | (k₁, v₁) :: rest, k, v =>
      if k₁ = k then (k, v) :: rest else (k₁, v₁) :: updateAssoc rest k v

/-- One byte of `sanitizedChars = strings.NewReplacer("/", "_", " ", "",
"%", "Percent", ":", "_", backslash, "_", "[", "", "]", "", ".", "",
"#", "", "_", "")`. Every pattern is a single byte, so the replacer
substitutes each input byte independently in one pass. -/
def replaceCharL (c : Char) : List Char :=
  if c = '/' then ['_']
  else if c = ' ' then []
  else if c = '%' then ['P', 'e', 'r', 'c', 'e', 'n', 't']
  else if c = ':' then ['_']
  else if c = '\\' then ['_']
  else if c = '[' then []
  else if c = ']' then []
  else if c = '.' then []
  else if c = '#' then []
  else if c = '_' then []
  else [c]

/-- `sanitizedChars.Replace` on a character list. -/
def sanitizeList (l : List Char) : List Char := l.flatMap replaceCharL

/-- `sanitizedChars.Replace(s)`. -/
def sanitize (s : String) : String := String.mk (sanitizeList s.data)

/-- The per-value step of `buildTags`: a tag value equal to `"/"` becomes
`"ROOT"`, every other value is sanitized. -/
def tagValue (v : String) : String := if v = "/" then "ROOT" else sanitize v

/-- Insertion step of lexicographic string sorting (`sort.Strings`). -/
def insertSorted (x : String) : List String → List String
  | [] => [x]
  | y :: ys => if x ≤ y then x :: y :: ys else y :: insertSorted x ys

/-- Lexicographic sort of a list of strings, modelling `sort.Strings`. -/
def sortStrings (l : List String) : List String := l.foldr insertSorted []

/-- `buildTags`: drop the `"host"` key, sort the remaining keys, map each
value through the `"/"` ↦ `"ROOT"` special case or sanitization, and join
the values (keys are dropped) with `"/"`. -/
def buildTags (tags : List (String × String)) : String :=
  let keys := sortStrings ((tags.map Prod.fst).filter (fun k => k ≠ "host"))
  String.intercalate "/" (keys.map (fun k => tagValue ((lookupA tags k).getD "")))

/-- The dynamic type of one telegraf field value, as distinguished by the
`switch t := v.(type)` in `serialize`; `fString` stands for any type the
switch does not handle (strings in particular). -/
inductive FieldValue : Type
  | fInt : Int → FieldValue
  | fInt32 : Int → FieldValue
  | fInt64 : Int → FieldValue
  | fFloat : ℚ → FieldValue
  | fBool : Bool → FieldValue
  | fString : String → FieldValue
deriving DecidableEq, Repr

/-- The `switch` of `serialize`: numeric types widen to float, booleans
become 1/0, everything else is skipped (`none`). -/
def fieldToValue : FieldValue → Option ℚ
  | .fInt t => some t
  | .fInt32 t => some t
  | .fInt64 t => some t
  | .fFloat t => some t
  | .fBool t => some (if t then 1 else 0)
  | .fString _ => none

/-- One incoming telegraf metric sample. -/
structure Metric : Type where
  name : String
  tags : List (String × String)
  fields : List (String × FieldValue)
deriving DecidableEq, Repr

/-- `NRMetric`: the running aggregate stored per fully-qualified path. -/
structure NRMetric : Type where
  count : Int
  total : ℚ
  min : ℚ
  max : ℚ
  sumOfSquares : ℚ
deriving DecidableEq, Repr

/-- The `NRMetric` literal built in `serialize` for a single value:
`{Total: value, Count: 1, Min: value, Max: value, SumOfSquares: value*value}`. -/
def mkStat (value : ℚ) : NRMetric :=
  { count := 1, total := value, min := value, max := value,
    sumOfSquares := value * value }

/-- The fully-qualified path built in `serialize` for field key `k`:
`"Component/" + strings.Join(parts, "/")` with parts = sanitized name,
the tag string when non-empty, and the sanitized field key. -/
def metricPath (m : Metric) (k : String) : String :=
  let tags := buildTags m.tags
  "Component/" ++ String.intercalate "/"
    ([sanitize m.name] ++ (if tags = "" then [] else [tags]) ++ [sanitize k])

/-- The body of `serialize`'s loop for one field: skip an unconvertible
value, otherwise store the single-sample stat under the field's path. -/
def serializeStep (m : Metric) (values : List (String × NRMetric))
    (kv : String × FieldValue) : List (String × NRMetric) :=
  match fieldToValue kv.2 with
  | none => values
  | some value => updateAssoc values (metricPath m kv.1) (mkStat value)

/-- `serialize`: one `NRMetric` per convertible field, keyed by its
fully-qualified path; unconvertible fields are skipped. -/
def serialize (m : Metric) : List (String × NRMetric) :=
  m.fields.foldl (serializeStep m) []

/-- `NRComponent`. -/
structure NRComponent : Type where
  name : String
  guid : String
  duration : Int
  metrics : List (String × NRMetric)
deriving DecidableEq, Repr

/-- `Aggregator`: the value stored per metric name in `BuildComponents`. -/
structure Aggregator : Type where
  tags : String
  component : NRComponent
deriving DecidableEq, Repr

/-- `equalsTags`: scan the lookup table for an entry whose key equals the
sample's name and whose stored tag string equals the sample's tag string. -/
def equalsTags (table : List (String × Aggregator)) (search : Metric) : Bool :=
  table.any (fun p => search.name == p.1 && buildTags search.tags == p.2.tags)

/-- The merge of one serialized entry into a component's metrics map
(`t, exists := Metrics[k]; t.Count += 1; t.Total += v.Total;
t.SumOfSquares += v.SumOfSquares; max/min updated when the path
pre-existed, else set`), where `v = mkStat value` so `v.total = value`. -/
def mergeMetric (ms : List (String × NRMetric)) (k : String) (v : NRMetric) :
    List (String × NRMetric) :=
  match lookupA ms k with
  | some t =>
      updateAssoc ms k
        { count := t.count + 1, total := t.total + v.total,
          min := if v.total < t.min then v.total else t.min,
          max := if v.total > t.max then v.total else t.max,
          sumOfSquares := t.sumOfSquares + v.sumOfSquares }
  | none =>
      updateAssoc ms k
        { count := 1, total := v.total, min := v.total, max := v.total,
          sumOfSquares := v.sumOfSquares }

/-- The body of `BuildComponents`' loop for one metric: merge into the
existing component when `equalsTags` holds, plainly assign the serialized
entries into it when it exists with different tags, and create a new
component (host tag or agent host, duration 60, the plugin GUID)
otherwise. -/
def buildStep (guid agentHost : String) (agg : List (String × Aggregator))
    (metric : Metric) : List (String × Aggregator) :=
  let name := metric.name
  match lookupA agg name with
  | some entry =>
      if equalsTags agg metric then
        let ms := (serialize metric).foldl
          (fun ms kv => mergeMetric ms kv.1 kv.2) entry.component.metrics
        updateAssoc agg name
          { entry with component := { entry.component with metrics := ms } }
      else
        let ms := (serialize metric).foldl
          (fun ms kv => updateAssoc ms kv.1 kv.2) entry.component.metrics
        updateAssoc agg name
          { entry with component := { entry.component with metrics := ms } }
  | none =>
      let host :=
        match lookupA metric.tags "host" with
        | some h => h
        | none => agentHost
      updateAssoc agg name
        { tags := buildTags metric.tags,
          component :=
            { name := host, guid := guid, duration := 60,
              metrics := serialize metric } }

/-- `BuildComponents`: fold the batch through the aggregator map and
collect the components. -/
def BuildComponents (guid agentHost : String) (metrics : List Metric) :
    List NRComponent :=
  (metrics.foldl (buildStep guid agentHost) []).map (fun p => p.2.component)

/-- `NRResponse`: the parsed response body `{error, status}`. -/
structure NRResponse : Type where
  error : String
  status : String
deriving DecidableEq, Repr

/-- The body check of `sendData`, reached only on an accepted status:
`none` models a body `encoding/json` failed to parse; on a parsed body a
non-empty `error` field fails first, then a `status` other than `"ok"`
fails; otherwise the send succeeds. A `some` result is the error
message returned, `none` is success. -/
def handleBody : Option NRResponse → Option String
  | none => some "received bad response data"
  | some r =>
      if r.error ≠ "" then some ("NewRelic error: " ++ r.error ++ "\n")
      else if r.status ≠ "ok" then
        some ("NewRelic Status not ok: " ++ r.status ++ "\n")
      else none

/-- The response handling of `sendData`, from the HTTP status code and
the (possibly unparsable) response body onward: statuses outside
[200, 209] are classified by the `switch` and return before the body is
read; accepted statuses proceed to `handleBody`. -/
def sendDataResponse (status : Int) (body : Option NRResponse) : Option String :=
  if status < 200 ∨ status > 209 then
    if status = 400 ∨ status = 404 ∨ status = 405 then
      some ("Status " ++ toString status ++ ": maybe update agent")
    else if status = 403 then
      some "Authentication error (no license key header, or invalid license key)."
    else if status = 413 then
      some "Request entity too large: Too many metrics were sent in one request"
    else if status = 500 ∨ status = 502 ∨ status = 503 ∨ status = 504 then
      some ("Status " ++ toString status ++ ": Newrelic API not available")
    else
      some ("received bad status code: " ++ toString status ++ "\n")
  else
    handleBody body

/-- `newrelic_api`, the default endpoint URL. -/
def newrelicApi : String := "https://platform-api.newrelic.com/platform/v1/metrics"

/-- `default_guid`. -/
def defaultGuid : String := "com.influxdata.telegraf"

/-- The configuration and connection state of the `NewRelic` struct;
`hasClient` models whether `n.client` has been set. -/
structure NewRelic : Type where
  url : String
  license : String
  guid : String
  hasClient : Bool
deriving DecidableEq, Repr

/-- `NRAgent`: the process-wide agent identity `request.Agent`. -/
structure NRAgent : Type where
  host : String
  version : String
  pid : Int
deriving DecidableEq, Repr

/-- `Connect`: default the URL, require a license, default the GUID,
create the HTTP client, then resolve the hostname (`hostnameResult`
models `os.Hostname()`) and set the agent identity. Returns the final
`NewRelic` state, the final agent identity and the error if any. -/
def Connect (n : NewRelic) (agent : NRAgent)
    (hostnameResult : Except String String) (pid : Int) :
    NewRelic × NRAgent × Option String :=
  let n₁ := if n.url = "" then { n with url := newrelicApi } else n
  if n₁.license = "" then
    (n₁, agent, some "Licence key is a required field for newrelic output")
  else
    let n₂ := if n₁.guid = "" then { n₁ with guid := defaultGuid } else n₁
    let n₃ := { n₂ with hasClient := true }
    match hostnameResult with
    | .error e => (n₃, agent, some ("FAILED to get hostname: , " ++ e))
    | .ok h => (n₃, { host := h, version := "1.0.0", pid := pid }, none)

/-- The JSON values `encoding/json` produces for this plugin's structs. -/
inductive Json : Type
  | jstr : String → Json
  | jint : Int → Json
  | jnum : ℚ → Json
  | jobj : List (String × Json) → Json
  | jarr : List Json → Json

/-- The keys of a JSON object (in emission order). -/
def objKeys : Json → List String
  | .jobj l => l.map Prod.fst
  | _ => []

/-- Read one key of a JSON object. -/
def jlookup : Json → String → Option Json
  | .jobj l, k => lookupA l k
  | _, _ => none

/-- `encoding/json` on `NRMetric`: `count` and `total` are always
emitted; `min`, `max` and `sum_of_squares` carry `omitempty` and are
dropped when the value is the zero value 0. -/
def marshalNRMetric (m : NRMetric) : Json :=
  .jobj ([("count", .jint m.count), ("total", .jnum m.total)]
    ++ (if m.min = 0 then [] else [("min", .jnum m.min)])
    ++ (if m.max = 0 then [] else [("max", .jnum m.max)])
    ++ (if m.sumOfSquares = 0 then [] else [("sum_of_squares", .jnum m.sumOfSquares)]))

/-- `encoding/json` on `NRComponent`: `duration` carries the `,string`
option and is emitted as the decimal string of the integer. -/
def marshalNRComponent (c : NRComponent) : Json :=
  .jobj [("name", .jstr c.name), ("guid", .jstr c.guid),
         ("duration", .jstr (toString c.duration)),
         ("metrics", .jobj (c.metrics.map (fun p => (p.1, marshalNRMetric p.2))))]

/-! ### Association-list lemmas -/

theorem lookupA_updateAssoc_self {α : Type} (l : List (String × α)) (k : String) (v : α) :
    lookupA (updateAssoc l k v) k = some v := by
  induction l with
  | nil => simp [updateAssoc, lookupA]
  | cons p rest ih =>
      by_cases h : p.1 = k
      · simp [updateAssoc, h, lookupA]
      · simpa [updateAssoc, h, lookupA] using ih

theorem lookupA_updateAssoc_ne {α : Type} (l : List (String × α)) (k k₂ : String) (v : α)
    (h : k₂ ≠ k) : lookupA (updateAssoc l k v) k₂ = lookupA l k₂ := by
  have hk : ¬(k = k₂) := fun h₁ => h h₁.symm
  induction l with
  | nil => simp [updateAssoc, lookupA, hk]
  | cons p rest ih =>
      by_cases hp : p.1 = k
      · have hp₂ : ¬(p.1 = k₂) := fun h₁ => hk (hp.symm.trans h₁)
        simp [updateAssoc, if_pos hp, lookupA, if_neg hk, if_neg hp₂]
      · simp only [updateAssoc, if_neg hp, lookupA]
        by_cases hq : p.1 = k₂
        · simp [hq]
        · simp [hq, ih]

theorem mem_updateAssoc {α : Type} (l : List (String × α)) (k : String) (v : α)
    (q : String × α) (h : q ∈ updateAssoc l k v) : q ∈ l ∨ q = (k, v) := by
  induction l with
  | nil => simpa [updateAssoc] using h
  | cons p rest ih =>
      by_cases hp : p.1 = k
      · simp only [updateAssoc, if_pos hp] at h
        rcases List.mem_cons.1 h with h₁ | h₁
        · exact Or.inr h₁
        · exact Or.inl (List.mem_cons_of_mem _ h₁)
      · simp only [updateAssoc, if_neg hp] at h
        rcases List.mem_cons.1 h with h₁ | h₁
        · exact Or.inl (h₁ ▸ List.mem_cons_self _ _)
        · rcases ih h₁ with h₂ | h₂
          · exact Or.inl (List.mem_cons_of_mem _ h₂)
          · exact Or.inr h₂

theorem lookupA_mem {α : Type} (l : List (String × α)) (k : String) (v : α)
    (h : lookupA l k = some v) : (k, v) ∈ l := by
  induction l with
  | nil => simp [lookupA] at h
  | cons p rest ih =>
      by_cases hp : p.1 = k
      · obtain ⟨p₁, p₂⟩ := p
        simp only [lookupA] at h hp
        rw [if_pos hp] at h
        obtain rfl : p₁ = k := hp
        obtain rfl : p₂ = v := by injection h
        exact List.mem_cons_self _ _
      · simp only [lookupA, if_neg hp] at h
        exact List.mem_cons_of_mem _ (ih h)

theorem lookupA_eq_none_iff {α : Type} (l : List (String × α)) (k : String) :
    lookupA l k = none ↔ k ∉ l.map Prod.fst := by
  induction l with
  | nil => simp [lookupA]
  | cons p rest ih =>
      by_cases hp : p.1 = k
      · simp [lookupA, hp]
      · have hk : ¬(k = p.1) := fun h₁ => hp h₁.symm
        simp [lookupA, hp, ih, hk]

theorem keys_updateAssoc_of_isSome {α : Type} (l : List (String × α)) (k : String) (v : α)
    (h : (lookupA l k).isSome) :
    (updateAssoc l k v).map Prod.fst = l.map Prod.fst := by
  induction l with
  | nil => simp [lookupA] at h
  | cons p rest ih =>
      by_cases hp : p.1 = k
      · simp [updateAssoc, hp]
      · simp only [lookupA, if_neg hp] at h
        simp [updateAssoc, hp, ih h]

theorem keys_updateAssoc_of_none {α : Type} (l : List (String × α)) (k : String) (v : α)
    (h : lookupA l k = none) :
    (updateAssoc l k v).map Prod.fst = l.map Prod.fst ++ [k] := by
  induction l with
  | nil => simp [updateAssoc]
  | cons p rest ih =>
      by_cases hp : p.1 = k
      · simp [lookupA, hp] at h
      · simp only [lookupA, if_neg hp] at h
        simp [updateAssoc, hp, ih h]

/-! ### `buildStep` key lemmas -/

theorem keys_buildStep (g h : String) (agg : List (String × Aggregator)) (m : Metric) :
    (buildStep g h agg m).map Prod.fst =
      if (lookupA agg m.name).isSome then agg.map Prod.fst
      else agg.map Prod.fst ++ [m.name] := by
  cases hl : lookupA agg m.name with
  | none =>
      simp only [hl, Option.isSome_none, Bool.false_eq_true, if_false]
      simp only [buildStep, hl]
      exact keys_updateAssoc_of_none _ _ _ hl
  | some entry =>
      simp only [hl, Option.isSome_some, if_true]
      simp only [buildStep, hl]
      by_cases he : equalsTags agg m
      · simp only [he, if_true]
        exact keys_updateAssoc_of_isSome _ _ _ (by simp [hl])
      · simp only [he, if_false]
        exact keys_updateAssoc_of_isSome _ _ _ (by simp [hl])

theorem mem_keys_buildStep (g h : String) (agg : List (String × Aggregator))
    (m : Metric) (a : String) :
    a ∈ (buildStep g h agg m).map Prod.fst ↔
      a ∈ agg.map Prod.fst ∨ a = m.name := by
  rw [keys_buildStep]
  cases hl : lookupA agg m.name with
  | none => simp
  | some entry =>
      have hmem : m.name ∈ agg.map Prod.fst :=
        List.mem_map_of_mem Prod.fst (lookupA_mem _ _ _ hl)
      simp only [hl, Option.isSome_some, if_true]
      constructor
      · exact Or.inl
      · rintro (h₁ | rfl)
        · exact h₁
        · exact hmem

theorem nodup_keys_buildStep (g h : String) (agg : List (String × Aggregator))
    (m : Metric) (hn : (agg.map Prod.fst).Nodup) :
    ((buildStep g h agg m).map Prod.fst).Nodup := by
  rw [keys_buildStep]
  cases hl : lookupA agg m.name with
  | none =>
      simp only [hl, Option.isSome_none, Bool.false_eq_true, if_false]
      refine List.Nodup.append hn (List.nodup_singleton _) ?_
      intro a ha hb
      obtain rfl : a = m.name := by simpa using hb
      exact ((lookupA_eq_none_iff _ _).1 hl) ha
  | some entry => simpa [hl] using hn

theorem lookupA_buildStep_ne (g h : String) (agg : List (String × Aggregator))
    (m : Metric) (k : String) (hk : k ≠ m.name) :
    lookupA (buildStep g h agg m) k = lookupA agg k := by
  cases hl : lookupA agg m.name with
  | none =>
      simp only [buildStep, hl]
      exact lookupA_updateAssoc_ne _ _ _ _ hk
  | some entry =>
      simp only [buildStep, hl]
      by_cases he : equalsTags agg m
      · simp only [he, if_true]
        exact lookupA_updateAssoc_ne _ _ _ _ hk
      · simp only [he, if_false]
        exact lookupA_updateAssoc_ne _ _ _ _ hk

theorem mem_keys_foldl (g h : String) (ms : List Metric) :
    ∀ (agg : List (String × Aggregator)) (a : String),
      a ∈ (ms.foldl (buildStep g h) agg).map Prod.fst ↔
        a ∈ agg.map Prod.fst ∨ a ∈ ms.map Metric.name := by
  induction ms with
  | nil => simp
  | cons m rest ih =>
      intro agg a
      simp only [List.foldl_cons, List.map_cons, List.mem_cons]
      rw [ih, mem_keys_buildStep]
      tauto

theorem nodup_keys_foldl (g h : String) (ms : List Metric) :
    ∀ (agg : List (String × Aggregator)), (agg.map Prod.fst).Nodup →
      ((ms.foldl (buildStep g h) agg).map Prod.fst).Nodup := by
  induction ms with
  | nil => intro agg hn; simpa using hn
  | cons m rest ih =>
      intro agg hn
      exact ih _ (nodup_keys_buildStep g h agg m hn)

theorem duration_foldl (g h : String) (ms : List Metric) :
    ∀ (agg : List (String × Aggregator)),
      (∀ p ∈ agg, p.2.component.duration = 60) →
      ∀ p ∈ ms.foldl (buildStep g h) agg, p.2.component.duration = 60 := by
  induction ms with
  | nil => intro agg hn; simpa using hn
  | cons m rest ih =>
      intro agg hn
      refine ih _ ?_
      intro p hp
      cases hl : lookupA agg m.name with
      | none =>
          simp only [buildStep, hl] at hp
          rcases mem_updateAssoc _ _ _ _ hp with h₁ | h₁
          · exact hn p h₁
          · rw [h₁]
      | some entry =>
          have hentry : entry.component.duration = 60 :=
            hn (m.name, entry) (lookupA_mem _ _ _ hl)
          simp only [buildStep, hl] at hp
          by_cases he : equalsTags agg m
          · simp only [he, if_true] at hp
            rcases mem_updateAssoc _ _ _ _ hp with h₁ | h₁
            · exact hn p h₁
            · rw [h₁]; exact hentry
          · simp only [he, if_false] at hp
            rcases mem_updateAssoc _ _ _ _ hp with h₁ | h₁
            · exact hn p h₁
            · rw [h₁]; exact hentry

/-! ### Sanitization lemmas -/

/-- The characters the spec lists as removed, except the underscore. -/
def bannedChars : List Char := ['/', ' ', '%', ':', '\\', '[', ']', '.', '#']

/-- All ten patterns of the replacer, the underscore included. -/
def patternChars : List Char := ['/', ' ', '%', ':', '\\', '[', ']', '.', '#', '_']

set_option maxHeartbeats 1600000 in
theorem replaceCharL_avoids (d c : Char) (h : c ∈ replaceCharL d) :
    c ∉ bannedChars := by
  intro hc
  simp only [bannedChars, List.mem_cons, List.not_mem_nil, or_false] at hc
  unfold replaceCharL at h
  split_ifs at h with c1 c2 c3 c4 c5 c6 c7 c8 c9 c10
  · simp only [List.mem_singleton] at h; subst h; revert hc; decide
  · exact List.not_mem_nil c h
  · simp only [List.mem_cons, List.not_mem_nil, or_false] at h
    rcases h with rfl | rfl | rfl | rfl | rfl | rfl | rfl <;> (revert hc; decide)
  · simp only [List.mem_singleton] at h; subst h; revert hc; decide
  · simp only [List.mem_singleton] at h; subst h; revert hc; decide
  · exact List.not_mem_nil c h
  · exact List.not_mem_nil c h
  · exact List.not_mem_nil c h
  · exact List.not_mem_nil c h
  · exact List.not_mem_nil c h
  · simp only [List.mem_singleton] at h; subst h
    rcases hc with rfl | rfl | rfl | rfl | rfl | rfl | rfl | rfl | rfl
    exacts [c1 rfl, c2 rfl, c3 rfl, c4 rfl, c5 rfl, c6 rfl, c7 rfl, c8 rfl, c9 rfl]

theorem replaceCharL_id (c : Char) (h : c ∉ patternChars) : replaceCharL c = [c] := by
  simp only [patternChars, List.mem_cons, List.not_mem_nil, or_false, not_or] at h
  obtain ⟨h₁, h₂, h₃, h₄, h₅, h₆, h₇, h₈, h₉, h₁₀⟩ := h
  simp [replaceCharL, h₁, h₂, h₃, h₄, h₅, h₆, h₇, h₈, h₉, h₁₀]

set_option maxHeartbeats 1600000 in
theorem replaceCharL_no_underscore (d : Char) (hd : d ∉ (['/', ':', '\\'] : List Char))
    (c : Char) (h : c ∈ replaceCharL d) : c ≠ '_' := by
  intro hc
  subst hc
  simp only [List.mem_cons, List.not_mem_nil, or_false, not_or] at hd
  obtain ⟨h₁, h₂, h₃⟩ := hd
  unfold replaceCharL at h
  split_ifs at h with c1 c2 c3 c4 c5 c6 c7
  · exact List.not_mem_nil _ h
  · revert h; decide
  · exact List.not_mem_nil _ h
  · exact List.not_mem_nil _ h
  · exact List.not_mem_nil _ h
  · exact List.not_mem_nil _ h
  · exact List.not_mem_nil _ h
  · simp only [List.mem_singleton] at h
    exact c7 h.symm

theorem sanitizeList_avoids (l : List Char) (c : Char) (h : c ∈ sanitizeList l) :
    c ∉ bannedChars := by
  obtain ⟨d, _, hc⟩ := List.mem_flatMap.1 h
  exact replaceCharL_avoids d c hc

theorem sanitizeList_id (l : List Char) (h : ∀ c ∈ l, c ∉ patternChars) :
    sanitizeList l = l := by
  induction l with
  | nil => rfl
  | cons c rest ih =>
      have hc := replaceCharL_id c (h c (List.mem_cons_self _ _))
      have hrest := ih (fun d hd => h d (List.mem_cons_of_mem _ hd))
      simp [sanitizeList, List.flatMap_cons, hc]
      simpa [sanitizeList] using hrest

theorem sanitizeList_twice_clean (l : List Char) (c : Char)
    (h : c ∈ sanitizeList (sanitizeList l)) : c ∉ patternChars := by
  obtain ⟨d, hd, hc⟩ := List.mem_flatMap.1 h
  have hdb : d ∉ bannedChars := sanitizeList_avoids l d hd
  have hd₃ : d ∉ (['/', ':', '\\'] : List Char) := by
    simp only [bannedChars, List.mem_cons, List.not_mem_nil, or_false, not_or] at hdb
    simp only [List.mem_cons, List.not_mem_nil, or_false, not_or]
    tauto
  have h₁ : c ∉ bannedChars := replaceCharL_avoids d c hc
  have h₂ : c ≠ '_' := replaceCharL_no_underscore d hd₃ c hc
  simp only [bannedChars, List.mem_cons, List.not_mem_nil, or_false, not_or] at h₁
  simp only [patternChars, List.mem_cons, List.not_mem_nil, or_false, not_or]
  tauto

/-! ### Claim C3 — sanitization -/

/-- C3, counterexample: sanitization of `"/"` yields `"_"`, so the output
of sanitization can contain the underscore the claim says is removed, and
sanitization is not idempotent on the already-sanitized string `"_"`
(a second application deletes the underscore). -/
theorem claim3_counterexample :
    sanitize "/" = "_" ∧ '_' ∈ (sanitize "/").data ∧
      sanitize (sanitize "/") = "" ∧ sanitize (sanitize "/") ≠ sanitize "/" := by
  decide

/-- C3 (amended): for every input string the sanitized output contains
none of `/`, space, `%`, `:`, backslash, `[`, `]`, `.`, `#` — but it may
contain `_`, which `/`, `:` and backslash are replaced with while input
underscores are deleted, so sanitization is only stable from the second
application on; a tag value exactly `"/"` maps to the literal `"ROOT"`. -/
theorem claim3_sanitize_amended (s : String) :
    (∀ c ∈ (sanitize s).data, c ∉ bannedChars) ∧
    sanitize (sanitize (sanitize s)) = sanitize (sanitize s) ∧
    tagValue "/" = "ROOT" := by
  refine ⟨?_, ?_, rfl⟩
  · intro c hc
    exact sanitizeList_avoids s.data c hc
  · exact congrArg String.mk
      (sanitizeList_id _ (sanitizeList_twice_clean s.data))

/-- Witness for C3 (amended) at the input `"a:b"`. -/
theorem claim3_sanitize_amended_witness :
    'a' ∉ bannedChars ∧ sanitize (sanitize (sanitize "a:b")) = sanitize (sanitize "a:b") :=
  ⟨(claim3_sanitize_amended "a:b").1 'a' (by decide),
   (claim3_sanitize_amended "a:b").2.1⟩

/-! ### Claim C4 — the two-sample merge scenario -/

set_option maxHeartbeats 1600000 in
/-- C4: two samples named `"m1"` with tags `{tag1: tagvalue1}` carrying
`value1 = 3` then `value1 = 2` aggregate to one component whose only path
ends in `"/value1"` with count 2, total 5, min 2, max 3 and
sum-of-squares 13. -/
theorem claim4_two_sample_merge :
    BuildComponents "guid1" "host1"
      [⟨"m1", [("tag1", "tagvalue1")], [("value1", .fFloat 3)]⟩,
       ⟨"m1", [("tag1", "tagvalue1")], [("value1", .fFloat 2)]⟩] =
      [⟨"host1", "guid1", 60,
        [("Component/m1/tagvalue1/value1",
          { count := 2, total := 5, min := 2, max := 3, sumOfSquares := 13 })]⟩] ∧
    "Component/m1/tagvalue1/value1" = "Component/m1/tagvalue1" ++ "/value1" := by
  constructor
  · norm_num +decide [BuildComponents, buildStep, serialize, serializeStep, fieldToValue,
      metricPath, buildTags, sortStrings, insertSorted, sanitize, sanitizeList, replaceCharL,
      tagValue, lookupA, updateAssoc, equalsTags, mergeMetric, mkStat, String.intercalate]
  · decide

/-! ### Claim C2 — aggregation loses repeated off-group tag sets -/

set_option maxHeartbeats 1600000 in
/-- C2, failing input: three samples named `"n"`; the first has tags
`{t: a}`, the second and third share tags `{t: b}` with field `f = 3`
then `f = 5`. The second and third sample share (name, tag-set minus
host), so the claim requires the path `Component/n/b/f` to carry
count 2, total 8, min 3, max 5 — but the code's `else` branch plainly
overwrites the path, leaving count 1, total 5, min 5, max 5: the
contributed value 3 is lost and lies outside [min, max]. -/
theorem claim2_overwrite_failing_input :
    BuildComponents "g" "h"
      [⟨"n", [("t", "a")], [("f", .fFloat 1)]⟩,
       ⟨"n", [("t", "b")], [("f", .fFloat 3)]⟩,
       ⟨"n", [("t", "b")], [("f", .fFloat 5)]⟩] =
      [⟨"h", "g", 60,
        [("Component/n/a/f", { count := 1, total := 1, min := 1, max := 1, sumOfSquares := 1 }),
         ("Component/n/b/f", { count := 1, total := 5, min := 5, max := 5, sumOfSquares := 25 })]⟩] := by
  norm_num +decide [BuildComponents, buildStep, serialize, serializeStep, fieldToValue,
    metricPath, buildTags, sortStrings, insertSorted, sanitize, sanitizeList, replaceCharL,
    tagValue, lookupA, updateAssoc, equalsTags, mergeMetric, mkStat, String.intercalate]

/-! ### Claim C10 — merging into an existing component is frame-preserving -/

/-- C10: once a component exists for a metric name, processing a further
sample of that name — whatever its tags, the `host` tag included — leaves
the component's `Name`, `GUID` and `Duration` (and the stored tag string)
unchanged; only the metrics map can change. -/
theorem claim10_frame (g h : String) (agg : List (String × Aggregator))
    (m : Metric) (entry : Aggregator)
    (hl : lookupA agg m.name = some entry) :
    ∃ e, lookupA (buildStep g h agg m) m.name = some e ∧
      e.component.name = entry.component.name ∧
      e.component.guid = entry.component.guid ∧
      e.component.duration = entry.component.duration ∧
      e.tags = entry.tags := by
  simp only [buildStep, hl]
  by_cases he : equalsTags agg m
  · simp only [he, if_true]
    exact ⟨_, lookupA_updateAssoc_self _ _ _, rfl, rfl, rfl, rfl⟩
  · simp only [he, if_false]
    exact ⟨_, lookupA_updateAssoc_self _ _ _, rfl, rfl, rfl, rfl⟩

/-- Witness for C10: the existing component for `"a"` keeps name
`"host0"`, GUID `"g0"` and duration 60 when a later sample of name `"a"`
arrives with a different `host` tag. -/
theorem claim10_frame_witness :
    ∃ e, lookupA (buildStep "g" "h"
        [("a", ⟨"", ⟨"host0", "g0", 60, []⟩⟩)] ⟨"a", [("host", "zzz")], []⟩) "a" = some e ∧
      e.component.name = "host0" ∧ e.component.guid = "g0" ∧
      e.component.duration = 60 ∧ e.tags = "" :=
  claim10_frame "g" "h" [("a", ⟨"", ⟨"host0", "g0", 60, []⟩⟩)]
    ⟨"a", [("host", "zzz")], []⟩ ⟨"", ⟨"host0", "g0", 60, []⟩⟩ (by decide)

/-! ### Claim C7 — HTTP status classification -/

/-- C7: `sendData` classifies the response status exactly as claimed —
[200, 209] proceeds to the body check, 400/404/405 report a
client/version mismatch, 403 an authentication error, 413 a
payload-too-large error, 500/502/503/504 an unavailable endpoint, every
other status outside [200, 209] a generic bad status — and every
rejected status yields a result independent of the response body. -/
theorem claim7_status_classification (s : Int) (b : Option NRResponse) :
    (200 ≤ s ∧ s ≤ 209 → sendDataResponse s b = handleBody b) ∧
    ((s = 400 ∨ s = 404 ∨ s = 405) →
      sendDataResponse s b = some ("Status " ++ toString s ++ ": maybe update agent")) ∧
    (s = 403 → sendDataResponse s b =
      some "Authentication error (no license key header, or invalid license key).") ∧
    (s = 413 → sendDataResponse s b =
      some "Request entity too large: Too many metrics were sent in one request") ∧
    ((s = 500 ∨ s = 502 ∨ s = 503 ∨ s = 504) →
      sendDataResponse s b = some ("Status " ++ toString s ++ ": Newrelic API not available")) ∧
    ((s < 200 ∨ s > 209) →
      s ≠ 400 → s ≠ 403 → s ≠ 404 → s ≠ 405 → s ≠ 413 →
      s ≠ 500 → s ≠ 502 → s ≠ 503 → s ≠ 504 →
      sendDataResponse s b = some ("received bad status code: " ++ toString s ++ "\n")) ∧
    ((s < 200 ∨ s > 209) → ∀ b₁ b₂, sendDataResponse s b₁ = sendDataResponse s b₂) := by
  refine ⟨?_, ?_, ?_, ?_, ?_, ?_, ?_⟩
  · rintro ⟨h₁, h₂⟩
    have hc : ¬(s < 200 ∨ s > 209) := by omega
    simp [sendDataResponse, hc]
  · rintro (rfl | rfl | rfl) <;> norm_num [sendDataResponse]
  · rintro rfl; norm_num [sendDataResponse]
  · rintro rfl; norm_num [sendDataResponse]
  · rintro (rfl | rfl | rfl | rfl) <;> norm_num [sendDataResponse]
  · intro hc h1 h2 h3 h4 h5 h6 h7 h8 h9
    simp only [sendDataResponse, if_pos hc]
    rw [if_neg (by tauto), if_neg h2, if_neg h5, if_neg (by tauto)]
  · intro hc b₁ b₂
    simp only [sendDataResponse, if_pos hc]

/-- Witness for C7 at the statuses 403, 500 and 200. -/
theorem claim7_status_classification_witness :
    sendDataResponse 403 none =
      some "Authentication error (no license key header, or invalid license key)." ∧
    sendDataResponse 500 (some ⟨"", ""⟩) =
      some ("Status " ++ toString (500 : Int) ++ ": Newrelic API not available") ∧
    sendDataResponse 200 (some ⟨"", "ok"⟩) = handleBody (some ⟨"", "ok"⟩) :=
  ⟨(claim7_status_classification 403 none).2.2.1 rfl,
   (claim7_status_classification 500 (some ⟨"", ""⟩)).2.2.2.2.1 (by norm_num),
   (claim7_status_classification 200 (some ⟨"", "ok"⟩)).1 (by norm_num)⟩

/-! ### Claim C8 — body check on accepted statuses -/

/-- C8: on an accepted status the parsed body `{error, status}` is
checked — a body that failed to parse is a failure, a non-empty `error`
field is a failure carrying that message, a `status` other than `"ok"`
is a failure — and a status-200 response whose body is `{status: ok}`
succeeds. -/
theorem claim8_body_check (r : NRResponse) :
    (handleBody none).isSome = true ∧
    (r.error ≠ "" → handleBody (some r) = some ("NewRelic error: " ++ r.error ++ "\n")) ∧
    (r.error = "" → r.status ≠ "ok" →
      handleBody (some r) = some ("NewRelic Status not ok: " ++ r.status ++ "\n")) ∧
    handleBody (some ⟨"", "ok"⟩) = none ∧
    sendDataResponse 200 (some ⟨"", "ok"⟩) = none := by
  refine ⟨rfl, ?_, ?_, by decide, by decide⟩
  · intro h
    simp [handleBody, h]
  · intro h₁ h₂
    simp [handleBody, h₁, h₂]

/-- Witness for C8: the spec's `force error` scenario and the success
scenario. -/
theorem claim8_body_check_witness :
    handleBody (some ⟨"force error", ""⟩) =
      some ("NewRelic error: " ++ "force error" ++ "\n") ∧
    handleBody (some ⟨"", "nope"⟩) =
      some ("NewRelic Status not ok: " ++ "nope" ++ "\n") :=
  ⟨(claim8_body_check ⟨"force error", ""⟩).2.1 (by decide),
   (claim8_body_check ⟨"", "nope"⟩).2.2.1 rfl (by decide)⟩

/-! ### Claim C9 — connect-time failures -/

/-- C9, counterexample: `Connect` on a client with empty URL and empty
license fails, but the client's configuration is changed by the call —
the URL has already been defaulted to the vendor endpoint before the
license check — so partial state is retained on a connect-time
configuration error. -/
theorem claim9_counterexample :
    ((Connect ⟨"", "", "", false⟩ ⟨"h", "v", 1⟩ (.ok "x") 1).2.2).isSome = true ∧
    (Connect ⟨"", "", "", false⟩ ⟨"h", "v", 1⟩ (.ok "x") 1).1 ≠ ⟨"", "", "", false⟩ := by
  decide

/-- C9 (amended): `Connect` with an empty license fails with the
missing-license error before the hostname is even consulted (its result
does not depend on the hostname lookup or pid — the only external
activity), and on every connect-time error the agent identity is
unchanged; the client configuration, however, is not rolled back: an
empty URL has already been defaulted (and, on a hostname failure, the
GUID and client as well). -/
theorem claim9_connect_amended (n : NewRelic) (agent : NRAgent)
    (hres : Except String String) (pid : Int) :
    (n.license = "" →
      (Connect n agent hres pid).2.2 =
        some "Licence key is a required field for newrelic output" ∧
      (∀ hres₂ pid₂, Connect n agent hres₂ pid₂ = Connect n agent hres pid) ∧
      (Connect n agent hres pid).2.1 = agent ∧
      (Connect n agent hres pid).1 =
        (if n.url = "" then { n with url := newrelicApi } else n)) ∧
    (∀ e, hres = .error e → n.license ≠ "" →
      (Connect n agent hres pid).2.2 = some ("FAILED to get hostname: , " ++ e) ∧
      (Connect n agent hres pid).2.1 = agent) ∧
    (∀ msg, (Connect n agent hres pid).2.2 = some msg →
      (Connect n agent hres pid).2.1 = agent) := by
  refine ⟨?_, ?_, ?_⟩
  · intro hl
    by_cases hu : n.url = "" <;>
      refine ⟨by simp [Connect, hu, hl], fun hres₂ pid₂ => by simp [Connect, hu, hl],
        by simp [Connect, hu, hl], by simp [Connect, hu, hl]⟩
  · rintro e rfl hl
    by_cases hu : n.url = "" <;> by_cases hg : n.guid = "" <;>
      exact ⟨by simp [Connect, hu, hl, hg], by simp [Connect, hu, hl, hg]⟩
  · intro msg hmsg
    by_cases hl : n.license = ""
    · by_cases hu : n.url = "" <;> simp [Connect, hu, hl]
    · cases hres with
      | error e =>
          by_cases hu : n.url = "" <;> by_cases hg : n.guid = "" <;>
            simp [Connect, hu, hl, hg]
      | ok hn =>
          exfalso
          by_cases hu : n.url = "" <;> by_cases hg : n.guid = "" <;>
            simp [Connect, hu, hl, hg] at hmsg

/-- Witness for C9 (amended): a client with empty license and non-empty
URL fails with the missing-license error and leaves the agent identity
untouched. -/
theorem claim9_connect_amended_witness :
    (Connect ⟨"u", "", "g", false⟩ ⟨"a", "v", 0⟩ (.ok "x") 5).2.2 =
      some "Licence key is a required field for newrelic output" ∧
    (Connect ⟨"u", "", "g", false⟩ ⟨"a", "v", 0⟩ (.ok "x") 5).2.1 = ⟨"a", "v", 0⟩ :=
  ⟨((claim9_connect_amended ⟨"u", "", "g", false⟩ ⟨"a", "v", 0⟩ (.ok "x") 5).1 rfl).1,
   ((claim9_connect_amended ⟨"u", "", "g", false⟩ ⟨"a", "v", 0⟩ (.ok "x") 5).1 rfl).2.2.1⟩

/-! ### Claim C5 — field value conversion -/

theorem foldl_serializeStep_skip (m : Metric) :
    ∀ (fs : List (String × FieldValue)), (∀ kv ∈ fs, fieldToValue kv.2 = none) →
      ∀ acc, fs.foldl (serializeStep m) acc = acc := by
  intro fs
  induction fs with
  | nil => intro _ acc; rfl
  | cons kv rest ih =>
      intro h acc
      have h₁ : fieldToValue kv.2 = none := h kv (List.mem_cons_self _ _)
      have h₂ : ∀ x ∈ rest, fieldToValue x.2 = none :=
        fun x hx => h x (List.mem_cons_of_mem _ hx)
      simp only [List.foldl_cons, serializeStep, h₁]
      exact ih h₂ acc

/-- C5: booleans contribute 1 (true) or 0 (false), the integer types of
the switch widen to the exact float value, strings convert to nothing,
a sample all of whose fields are unconvertible serializes to an empty
metrics map (silently, no error value exists), and a convertible field
contributes exactly its stat under its path. -/
theorem claim5_field_conversion :
    (∀ b : Bool, fieldToValue (.fBool b) = some (if b then 1 else 0)) ∧
    (∀ i : Int, fieldToValue (.fInt i) = some (i : ℚ) ∧
      fieldToValue (.fInt32 i) = some (i : ℚ) ∧ fieldToValue (.fInt64 i) = some (i : ℚ)) ∧
    (∀ s : String, fieldToValue (.fString s) = none) ∧
    (∀ m : Metric, (∀ kv ∈ m.fields, fieldToValue kv.2 = none) → serialize m = []) ∧
    (∀ (m : Metric) (k : String) (v : FieldValue) (q : ℚ),
      m.fields = [(k, v)] → fieldToValue v = some q →
      serialize m = [(metricPath m k, mkStat q)]) := by
  refine ⟨fun b => rfl, fun i => ⟨rfl, rfl, rfl⟩, fun s => rfl, ?_, ?_⟩
  · intro m h
    unfold serialize
    exact foldl_serializeStep_skip m m.fields h []
  · intro m k v q hf hv
    simp [serialize, hf, serializeStep, hv, updateAssoc]

/-- Witness for C5: a boolean true, a skipped string-only sample, and an
integer field contributing its widened value. -/
theorem claim5_field_conversion_witness :
    fieldToValue (.fBool true) = some (if true then 1 else 0) ∧
    serialize ⟨"n", [], [("k", .fString "x")]⟩ = [] ∧
    serialize ⟨"mm", [], [("f", .fInt 7)]⟩ =
      [(metricPath ⟨"mm", [], [("f", FieldValue.fInt 7)]⟩ "f", mkStat ((7 : Int) : ℚ))] :=
  ⟨claim5_field_conversion.1 true,
   claim5_field_conversion.2.2.2.1 ⟨"n", [], [("k", .fString "x")]⟩ (by decide),
   claim5_field_conversion.2.2.2.2 ⟨"mm", [], [("f", .fInt 7)]⟩ "f" (.fInt 7) _ rfl rfl⟩

/-! ### Claim C6 — wire format of the marshalled request -/

set_option maxHeartbeats 1600000 in
/-- C6, counterexample: a sample whose only field value is 0 produces a
metric whose marshalled object has only the keys `count` and `total` —
`min`, `max` and `sum_of_squares` carry `omitempty` and are dropped at
their zero value, so not every metric object contains all five keys. -/
theorem claim6_counterexample :
    (BuildComponents "g" "h" [⟨"n", [], [("f", .fFloat 0)]⟩]).map
        (fun c => c.metrics.map (fun p => objKeys (marshalNRMetric p.2))) =
      [[["count", "total"]]] ∧
    "min" ∉ (["count", "total"] : List String) := by
  constructor
  · norm_num +decide [BuildComponents, buildStep, serialize, serializeStep, fieldToValue,
      metricPath, buildTags, sortStrings, insertSorted, sanitize, sanitizeList, replaceCharL,
      tagValue, lookupA, updateAssoc, equalsTags, mergeMetric, mkStat, String.intercalate,
      marshalNRMetric, objKeys]
  · decide

theorem objKeys_marshalNRMetric (stat : NRMetric) :
    objKeys (marshalNRMetric stat) =
      ["count", "total"] ++ (if stat.min = 0 then [] else ["min"]) ++
      (if stat.max = 0 then [] else ["max"]) ++
      (if stat.sumOfSquares = 0 then [] else ["sum_of_squares"]) := by
  simp only [marshalNRMetric, objKeys]
  split_ifs <;> simp

/-- C6 (amended): every component built by an aggregation pass marshals
its duration as the string `"60"` (not a numeric literal); a marshalled
metric object always contains `count` and `total`, and contains `min`,
`max` and `sum_of_squares` exactly when the respective value is nonzero
(they carry `omitempty`). -/
theorem claim6_marshal_amended (g h : String) (ms : List Metric) (c : NRComponent)
    (hc : c ∈ BuildComponents g h ms) (stat : NRMetric) :
    jlookup (marshalNRComponent c) "duration" = some (.jstr "60") ∧
    "count" ∈ objKeys (marshalNRMetric stat) ∧
    "total" ∈ objKeys (marshalNRMetric stat) ∧
    ("min" ∈ objKeys (marshalNRMetric stat) ↔ stat.min ≠ 0) ∧
    ("max" ∈ objKeys (marshalNRMetric stat) ↔ stat.max ≠ 0) ∧
    ("sum_of_squares" ∈ objKeys (marshalNRMetric stat) ↔ stat.sumOfSquares ≠ 0) := by
  refine ⟨?_, ?_, ?_, ?_, ?_, ?_⟩
  · obtain ⟨p, hp, rfl⟩ := List.mem_map.1 hc
    have hd : p.2.component.duration = 60 :=
      duration_foldl g h ms [] (by simp) p hp
    have hstep : jlookup (marshalNRComponent p.2.component) "duration" =
        some (.jstr (toString p.2.component.duration)) := by
      simp +decide [marshalNRComponent, jlookup, lookupA]
    rw [hstep, hd]
    exact congrArg (fun s => some (Json.jstr s)) (by decide)
  · rw [objKeys_marshalNRMetric]
    split_ifs <;> simp_all +decide
  · rw [objKeys_marshalNRMetric]
    split_ifs <;> simp_all +decide
  · rw [objKeys_marshalNRMetric]
    split_ifs <;> simp_all +decide
  · rw [objKeys_marshalNRMetric]
    split_ifs <;> simp_all +decide
  · rw [objKeys_marshalNRMetric]
    split_ifs <;> simp_all +decide

set_option maxHeartbeats 1600000 in
/-- Witness for C6 (amended) on the component built from a single sample
with field value 1. -/
theorem claim6_marshal_amended_witness :
    jlookup (marshalNRComponent ⟨"h", "g", 60, [("Component/n/f", mkStat 1)]⟩)
      "duration" = some (.jstr "60") ∧
    ("min" ∈ objKeys (marshalNRMetric (mkStat 1)) ↔ (mkStat 1).min ≠ 0) :=
  ⟨(claim6_marshal_amended "g" "h" [⟨"n", [], [("f", .fFloat 1)]⟩]
      ⟨"h", "g", 60, [("Component/n/f", mkStat 1)]⟩
      (by norm_num +decide [BuildComponents, buildStep, serialize, serializeStep,
        fieldToValue, metricPath, buildTags, sortStrings, insertSorted, sanitize,
        sanitizeList, replaceCharL, tagValue, lookupA, updateAssoc, equalsTags,
        mergeMetric, mkStat, String.intercalate]) (mkStat 1)).1,
   (claim6_marshal_amended "g" "h" [⟨"n", [], [("f", .fFloat 1)]⟩]
      ⟨"h", "g", 60, [("Component/n/f", mkStat 1)]⟩
      (by norm_num +decide [BuildComponents, buildStep, serialize, serializeStep,
        fieldToValue, metricPath, buildTags, sortStrings, insertSorted, sanitize,
        sanitizeList, replaceCharL, tagValue, lookupA, updateAssoc, equalsTags,
        mergeMetric, mkStat, String.intercalate]) (mkStat 1)).2.2.2.1⟩

/-! ### Claim C1 — component identity -/

set_option maxHeartbeats 1600000 in
/-- C1, counterexample: a batch with two samples of the same name but
different canonicalized tag strings forms two distinct
(name, tag string) groups yet produces a single component — the
aggregator map is keyed by name alone, so components are not 1:1 with
(name, tag-set) groups. -/
theorem claim1_counterexample :
    (BuildComponents "g" "h"
      [⟨"n", [("t", "a")], [("f", .fFloat 1)]⟩,
       ⟨"n", [("t", "b")], [("f", .fFloat 2)]⟩]).length = 1 ∧
    ((([⟨"n", [("t", "a")], [("f", .fFloat 1)]⟩,
        ⟨"n", [("t", "b")], [("f", .fFloat 2)]⟩] : List Metric)).map
        (fun m => (m.name, buildTags m.tags))).dedup.length = 2 := by
  constructor
  · norm_num +decide [BuildComponents, buildStep, serialize, serializeStep, fieldToValue,
      metricPath, buildTags, sortStrings, insertSorted, sanitize, sanitizeList, replaceCharL,
      tagValue, lookupA, updateAssoc, equalsTags, mergeMetric, mkStat, String.intercalate]
  · decide

/-- C1 (amended): the components of one aggregation pass are in 1:1
correspondence with the distinct metric *names* of the batch — the
aggregator map's keys are exactly the batch's names, without duplicates,
and the component count equals the number of distinct names; a sample
only ever touches the aggregator entry of its own name, so two samples
land in the same component iff their names are equal, whatever their
tag strings. -/
theorem claim1_components_per_name (g h : String) (ms : List Metric)
    (agg : List (String × Aggregator)) (m : Metric) (k : String) :
    ((ms.foldl (buildStep g h) []).map Prod.fst).Nodup ∧
    (∀ nm, nm ∈ (ms.foldl (buildStep g h) []).map Prod.fst ↔ nm ∈ ms.map Metric.name) ∧
    (BuildComponents g h ms).length = (ms.map Metric.name).dedup.length ∧
    (k ≠ m.name → lookupA (buildStep g h agg m) k = lookupA agg k) := by
  have hnodup := nodup_keys_foldl g h ms [] (by simp)
  have hmem : ∀ nm, nm ∈ (ms.foldl (buildStep g h) []).map Prod.fst ↔
      nm ∈ ms.map Metric.name := by
    intro nm
    rw [mem_keys_foldl]
    simp
  refine ⟨hnodup, hmem, ?_, lookupA_buildStep_ne g h agg m k⟩
  have hperm : List.Perm ((ms.foldl (buildStep g h) []).map Prod.fst)
      ((ms.map Metric.name).dedup) := by
    rw [List.perm_ext_iff_of_nodup hnodup (List.nodup_dedup _)]
    intro a
    rw [hmem, List.mem_dedup]
  simpa [BuildComponents] using hperm.length_eq

/-- Witness for C1 (amended): a sample named `"a"` leaves the (absent)
entry for `"b"` untouched. -/
theorem claim1_components_per_name_witness :
    lookupA (buildStep "g" "h" [] ⟨"a", [], []⟩) "b" =
      lookupA ([] : List (String × Aggregator)) "b" :=
  (claim1_components_per_name "g" "h" [] [] ⟨"a", [], []⟩ "b").2.2.2 (by decide)

end Newrelic
